import Mathlib

/-!
Shallow embedding of `constant.go` from the gotbot repository: the JSON and
multipart body builders (`GetJSONBody`, `GetMultipartBody`) and the generic
`coalesce` helper, together with proofs of the specified properties.

The source inspects a record value only through reflection: a field's `Kind()`,
`IsZero()`, its `fmt.Sprintf("%v", ·)` rendering and its `json.Marshal` result.
A runtime value is therefore embedded as exactly those four observations.
Reflection's panics are embedded too: `reflect.Value.NumField` panics on a
non-struct `msg`, and `reflect.Value.Interface` (called at lines 74/81 for
every field that is not skipped) panics when the field is unexported, so each
struct field carries its exported bit and the field pass panics at the first
non-skipped unexported field.
The multipart writer runs over an in-memory `bytes.Buffer` (whose writes never
fail), so the accumulated body is embedded as the list of parts written so far,
and `writer.WriteField` / `writer.Close` are infallible.  The filesystem is an
oracle giving, per path, the `os.Open` outcome, the `io.Copy` outcome and the
copied contents.
-/

deriving instance DecidableEq for Except

namespace Gotbot

/-- Runtime kinds as reported by `reflect.Value.Kind()`, restricted to the
cases the source distinguishes plus representatives of the default branch. -/
inductive Kind where
  | kbool | kint | kfloat | kstring | kptr | kchan | kfunc | kinterface
  | kstruct | kmap | karray | kslice
deriving DecidableEq

/-- A Go runtime value, abstracted by the four observations `GetMultipartBody`
makes of it: `Kind()`, `IsZero()`, `fmt.Sprintf("%v", v)`, and the result of
`json.Marshal(v)` (encoded bytes, or the marshal error). -/
structure GoValue where
  kind : Kind
  isZero : Bool
  render : String
  jsonEnc : Except String String
deriving DecidableEq

/-- One struct field as seen through reflection: identifier name, the value of
the `json` struct tag (`Tag.Get("json")`), whether the field is exported
(`PkgPath == ""`; `reflect.Value.Interface` panics on a value obtained from an
unexported field), and the runtime value. -/
structure StructField where
  name : String
  jsonTag : String
  exported : Bool
  value : GoValue
deriving DecidableEq

/-- `entity.FileEnvelop`: a named file attachment. -/
structure FileEnvelop where
  Name : String
  Path : String
deriving DecidableEq

/-- `BodyOptions` from constant.go. -/
structure BodyOptions where
  ContentType : String
deriving DecidableEq

/-- One part written to the multipart body: either a form field
(`writer.WriteField name value`) or a file part
(`writer.CreateFormFile name filename` followed by the copied contents). -/
inductive Part where
  | field : String → String → Part
  | file : String → String → String → Part
deriving DecidableEq

/-- The name under which a part appears in the body. -/
def Part.partName : Part → String
  | .field n _ => n
  | .file n _ _ => n

/-- Whether a part is a form field (as opposed to a file part). -/
def Part.isFieldPart : Part → Bool
  | .field _ _ => true
  | .file _ _ _ => false

/-- `coalesce` from constant.go, the generic first-non-zero-of helper.  The Go
version is generic over `T` using `*new(T)` (the zero value) and
`reflect.ValueOf(·).IsZero()`; those two are passed explicitly here. -/
def coalesce {T : Type} (zero : T) (isZero : T → Bool) : List T → T
  | [] => zero
  | v :: rest => if rest.isEmpty || !(isZero v) then v else coalesce zero isZero rest

/-- `strings.Contains hay needle` on the underlying character lists. -/
def strContainsAux (needle : List Char) : List Char → Bool
  | [] => needle.isEmpty
  | c :: t => needle.isPrefixOf (c :: t) || strContainsAux needle t

/-- `strings.Contains`. -/
def strContains (hay needle : String) : Bool :=
  strContainsAux needle.toList hay.toList

/-- Helper for `splitComma`: split a character list around `,`, the current
segment accumulated in reverse. -/
def splitCommaAux : List Char → List Char → List String
  | [], acc => [String.mk acc.reverse]
  | c :: rest, acc =>
    if c = ',' then String.mk acc.reverse :: splitCommaAux rest []
    else splitCommaAux rest (c :: acc)

/-- `strings.Split(s, ",")`: the segments of `s` around each comma.  Never
returns an empty list (the empty string yields `[""]`). -/
def splitComma (s : String) : List String :=
  splitCommaAux s.toList []

/-- The resolved wire name of a field:
`coalesce(strings.Split(Tag.Get("json"), ",")[0], Field.Name)`
(`strings.Split` never returns an empty slice). -/
def resolveFieldName (f : StructField) : String :=
  coalesce "" (fun s => s == "") [(splitComma f.jsonTag).headD "", f.name]

/-- The `skip` flag computed per field: true when some attachment has the
field's resolved name, or when the tag contains `",omitempty"` and the value
is zero. -/
def fieldSkip (files : List FileEnvelop) (f : StructField) : Bool :=
  files.any (fun fl => fl.Name == resolveFieldName f) ||
  (strContains f.jsonTag ",omitempty" && f.value.isZero)

/-- The string value written for a non-skipped field: composite kinds
(struct, map, array, slice) go through `json.Marshal`, everything else through
`fmt.Sprintf("%v", ·)`. -/
def fieldEncodedValue (f : StructField) : Except String String :=
  match f.value.kind with
  | .kstruct | .kmap | .karray | .kslice => f.value.jsonEnc
  | _ => .ok f.value.render

/-- The panic message of `reflect.Value.Interface` on a value obtained from an
unexported field (raised at lines 74 and 81 for any non-skipped unexported
field, before any marshalling or rendering of that field). -/
def unexportedPanicMsg : String :=
  "reflect.Value.Interface: cannot return value obtained from unexported field or method"

/-- Result of the field pass: the parts written, a returned error, or a
runtime panic (from `reflect.Value.Interface` on an unexported field). -/
inductive FieldPassResult where
  | ok : List Part → FieldPassResult
  | err : String → FieldPassResult
  | panicked : String → FieldPassResult
deriving DecidableEq

/-- Apply a function to the parts of a successful field pass. -/
def FieldPassResult.mapParts (g : List Part → List Part) : FieldPassResult → FieldPassResult
  | .ok ps => .ok (g ps)
  | r => r

/-- Sequence a field-pass result with a continuation on its parts. -/
def FieldPassResult.andThen (r : FieldPassResult)
    (g : List Part → FieldPassResult) : FieldPassResult :=
  match r with
  | .ok ps => g ps
  | r => r

/-- The field pass (lines 46-89): iterate fields in declaration order, skip
per `fieldSkip`; a non-skipped unexported field panics at
`reflect.Value.Interface` (lines 74/81); otherwise encode and write one form
field, a marshal error aborting the whole pass (`WriteField` into a
`bytes.Buffer` cannot fail). -/
def fieldPass (files : List FileEnvelop) : List StructField → FieldPassResult
  | [] => .ok []
  | f :: rest =>
    if fieldSkip files f then fieldPass files rest
    else if f.exported = false then .panicked unexportedPanicMsg
    else
      match fieldEncodedValue f with
      | .error e => .err e
      | .ok v =>
        match fieldPass files rest with
        | .ok ps => .ok (Part.field (resolveFieldName f) v :: ps)
        | r => r

/-- The filesystem oracle: per path, the `os.Open` outcome (`none` = opened),
the `io.Copy` outcome (`none` = copied), and the copied contents. -/
structure FS where
  openErr : String → Option String
  copyErr : String → Option String
  content : String → String

/-- `filepath.Base`: last element of the path after dropping trailing
separators; `"."` for the empty path, `"/"` when the path is all separators. -/
def baseName (path : String) : String :=
  if path = "" then "."
  else
    let trimmed := (path.toList.reverse.dropWhile (fun c => c = '/')).reverse
    let last := (trimmed.reverse.takeWhile (fun c => c ≠ '/')).reverse
    if last.isEmpty then "/" else String.mk last

/-- Result of processing one attachment (the closure at lines 92-108):
the produced file part or the error, plus whether the file handle was ever
opened and whether it was closed.  The `defer file.Close()` right after a
successful open makes `closed` true on every branch reached past the open. -/
structure AttachStep where
  result : Except String Part
  opened : Bool
  closed : Bool
deriving DecidableEq

/-- Process one attachment: `os.Open`, deferred close, `CreateFormFile`
(infallible over the in-memory buffer), `io.Copy`. -/
def processAttachment (fs : FS) (a : FileEnvelop) : AttachStep :=
  match fs.openErr a.Path with
  | some e => { result := .error e, opened := false, closed := false }
  | none =>
    match fs.copyErr a.Path with
    | some e => { result := .error e, opened := true, closed := true }
    | none =>
      { result := .ok (Part.file a.Name (baseName a.Path) (fs.content a.Path))
        opened := true
        closed := true }

/-- The file pass (lines 91-111): process attachments in order, abort on the
first error. -/
def filePass (fs : FS) : List FileEnvelop → Except String (List Part)
  | [] => .ok []
  | a :: rest =>
    match (processAttachment fs a).result with
    | .error e => .error e
    | .ok p =>
      match filePass fs rest with
      | .error e => .error e
      | .ok ps => .ok (p :: ps)

/-- Trace of the paths on which `os.Open` is called by the file pass: the loop
stops at the first attachment whose processing fails. -/
def openedPaths (fs : FS) : List FileEnvelop → List String
  | [] => []
  | a :: rest =>
    match (processAttachment fs a).result with
    | .error _ => [a.Path]
    | .ok _ => a.Path :: openedPaths fs rest

/-- The `msg any` argument: either a struct value (its reflected field list in
declaration order) or a value of some other kind (carrying the kind's name,
for the reflect panic message). -/
inductive Msg where
  | structMsg : List StructField → Msg
  | nonStruct : String → Msg
deriving DecidableEq

/-- The Go return triple of `GetMultipartBody`: the `io.Reader`
(`none` = nil, `some ps` = the buffer holding parts `ps`), the `BodyOptions`,
and the error. -/
structure MultipartReturn where
  stream : Option (List Part)
  options : BodyOptions
  err : Option String
deriving DecidableEq

/-- Outcome of a call: a normal return, or a runtime panic. -/
inductive Outcome where
  | ret : MultipartReturn → Outcome
  | panics : String → Outcome
deriving DecidableEq

/-- `GetMultipartBody` (lines 41-114).  `reflect.Value.NumField` panics on a
non-struct value, and the field pass panics at `reflect.Value.Interface` on
the first non-skipped unexported field.  The writer's boundary is the abstract
`boundary` argument; `writer.Close()` over the in-memory buffer cannot
fail. -/
def GetMultipartBody (fs : FS) (boundary : String) (msg : Msg)
    (files : List FileEnvelop) : Outcome :=
  match msg with
  | .nonStruct k =>
    .panics ("reflect: call of reflect.Value.NumField on " ++ k ++ " Value")
  | .structMsg fields =>
    match fieldPass files fields with
    | .panicked m => .panics m
    | .err e => .ret { stream := none, options := { ContentType := "" }, err := some e }
    | .ok ps =>
      match filePass fs files with
      | .error e => .ret { stream := none, options := { ContentType := "" }, err := some e }
      | .ok qs =>
        .ret { stream := some (ps ++ qs)
               options := { ContentType := "multipart/form-data; boundary=" ++ boundary }
               err := none }

/-- The Go return triple of `GetJSONBody`: the `io.Reader` (`none` = nil;
`some s` = a buffer holding `s`), the `BodyOptions`, and the error. -/
structure JSONReturn where
  stream : Option String
  options : BodyOptions
  err : Option String
deriving DecidableEq

/-- `GetJSONBody` (lines 35-38): `body, err := json.Marshal(value)` followed by
`return bytes.NewBuffer(body), BodyOptions{ContentType: "application/json"}, err`.
Note that the buffer and the options are returned even when `err` is non-nil
(`json.Marshal` returns a nil byte slice on error, and `bytes.NewBuffer(nil)`
is a non-nil empty buffer). -/
def GetJSONBody (value : GoValue) : JSONReturn :=
  { stream := some (match value.jsonEnc with | .ok s => s | .error _ => "")
    options := { ContentType := "application/json" }
    err := match value.jsonEnc with | .ok _ => none | .error e => some e }

/-! Concrete sample inputs used by the witnesses and counterexamples. -/

/-- A filesystem on which every open and copy succeeds. -/
def fsAllOk : FS :=
  { openErr := fun _ => none, copyErr := fun _ => none, content := fun _ => "JPEGDATA" }

/-- A filesystem on which every open fails. -/
def fsNoFiles : FS :=
  { openErr := fun p => some ("open " ++ p ++ ": no such file or directory")
    copyErr := fun _ => none
    content := fun _ => "" }

/-- A string field `Chat` with tag `chat_id` and value `"123"`. -/
def sampleChatField : StructField :=
  { name := "Chat", jsonTag := "chat_id", exported := true
    value := { kind := .kstring, isZero := false, render := "123", jsonEnc := .ok "\"123\"" } }

/-- An empty string field `Caption` with tag `caption,omitempty`. -/
def sampleCaptionField : StructField :=
  { name := "Caption", jsonTag := "caption,omitempty", exported := true
    value := { kind := .kstring, isZero := true, render := "", jsonEnc := .ok "\"\"" } }

/-- A slice-valued field `Ids` with tag `ids`, marshalling to `[1]`. -/
def sampleSliceField : StructField :=
  { name := "Ids", jsonTag := "ids", exported := true
    value := { kind := .kslice, isZero := false, render := "[1]", jsonEnc := .ok "[1]" } }

/-- A pointer-valued field `Markup` with tag `markup`; its `jsonEnc` is an
error to show the JSON path is never taken for pointer kinds. -/
def samplePtrField : StructField :=
  { name := "Markup", jsonTag := "markup", exported := true
    value := { kind := .kptr, isZero := false, render := "&\x7binline\x7d"
               jsonEnc := .error "never marshalled" } }

/-- A function-typed value, which `json.Marshal` rejects. -/
def badJSONValue : GoValue :=
  { kind := .kfunc, isZero := false, render := "0x4711"
    jsonEnc := .error "json: unsupported type: func()" }

/-- The attachment `{Name: "photo", Path: "/tmp/a.jpg"}`. -/
def samplePhotoFile : FileEnvelop := { Name := "photo", Path := "/tmp/a.jpg" }

/-- An attachment whose name collides with `sampleChatField`'s wire name. -/
def attachChat : FileEnvelop := { Name := "chat_id", Path := "/tmp/a.jpg" }

/-- A slice-valued field whose `json.Marshal` fails. -/
def sampleBadSliceField : StructField :=
  { name := "Ids", jsonTag := "ids", exported := true
    value := { kind := .kslice, isZero := false, render := "[+Inf]"
               jsonEnc := .error "json: unsupported value: +Inf" } }

/-- An unexported, untagged int field `secret` (never skipped, so reaching it
panics at `reflect.Value.Interface`). -/
def sampleUnexportedField : StructField :=
  { name := "secret", jsonTag := "", exported := false
    value := { kind := .kint, isZero := false, render := "7", jsonEnc := .ok "7" } }

/-- The return value of `GetMultipartBody` when the only attachment's open
fails on `fsNoFiles`. -/
def errReturnNoFile : MultipartReturn :=
  { stream := none, options := { ContentType := "" }
    err := some "open /tmp/a.jpg: no such file or directory" }

/-! Helper lemmas about the two passes. -/

theorem fieldPass_cons_skip (files : List FileEnvelop) (f : StructField)
    (rest : List StructField) (h : fieldSkip files f = true) :
    fieldPass files (f :: rest) = fieldPass files rest := by
  simp [fieldPass, h]

theorem fieldPass_cons_unexported (files : List FileEnvelop) (f : StructField)
    (rest : List StructField) (h : fieldSkip files f = false)
    (hexp : f.exported = false) :
    fieldPass files (f :: rest) = .panicked unexportedPanicMsg := by
  simp [fieldPass, h, hexp]

theorem fieldPass_cons_ok (files : List FileEnvelop) (f : StructField)
    (rest : List StructField) (v : String) (h : fieldSkip files f = false)
    (hexp : f.exported = true) (hv : fieldEncodedValue f = .ok v) :
    fieldPass files (f :: rest) =
      (fieldPass files rest).mapParts
        (fun ps => Part.field (resolveFieldName f) v :: ps) := by
  cases hr : fieldPass files rest <;>
    simp [fieldPass, h, hexp, hv, hr, FieldPassResult.mapParts]

theorem fieldPass_cons_error (files : List FileEnvelop) (f : StructField)
    (rest : List StructField) (e : String) (h : fieldSkip files f = false)
    (hexp : f.exported = true) (hv : fieldEncodedValue f = .error e) :
    fieldPass files (f :: rest) = .err e := by
  simp [fieldPass, h, hexp, hv]

theorem fieldPass_append (files : List FileEnvelop) (l₁ l₂ : List StructField) :
    fieldPass files (l₁ ++ l₂) =
      (fieldPass files l₁).andThen
        (fun ps => (fieldPass files l₂).mapParts (fun qs => ps ++ qs)) := by
  induction l₁ with
  | nil =>
    cases h₂ : fieldPass files l₂ <;>
      simp [fieldPass, h₂, FieldPassResult.andThen, FieldPassResult.mapParts]
  | cons f rest ih =>
    by_cases hs : fieldSkip files f = true
    · simp only [List.cons_append, fieldPass_cons_skip files f _ hs, ih]
    · rw [Bool.not_eq_true] at hs
      by_cases hexp : f.exported = true
      · cases hv : fieldEncodedValue f with
        | error e =>
          rw [List.cons_append, fieldPass_cons_error files f _ e hs hexp hv,
            fieldPass_cons_error files f rest e hs hexp hv]
          simp [FieldPassResult.andThen]
        | ok v =>
          rw [List.cons_append, fieldPass_cons_ok files f _ v hs hexp hv,
            fieldPass_cons_ok files f rest v hs hexp hv, ih]
          cases h₁ : fieldPass files rest <;>
            cases h₂ : fieldPass files l₂ <;>
              simp [FieldPassResult.andThen, FieldPassResult.mapParts]
      · rw [Bool.not_eq_true] at hexp
        rw [List.cons_append, fieldPass_cons_unexported files f _ hs hexp,
          fieldPass_cons_unexported files f rest hs hexp]
        simp [FieldPassResult.andThen]

theorem fieldPass_mem_shape (files : List FileEnvelop) (fields : List StructField)
    (ps : List Part) (h : fieldPass files fields = .ok ps) :
    ∀ p ∈ ps, ∃ f, f ∈ fields ∧ fieldSkip files f = false ∧
      ∃ v, p = Part.field (resolveFieldName f) v := by
  induction fields generalizing ps with
  | nil =>
    simp only [fieldPass] at h
    cases h
    intro p hp
    cases hp
  | cons f rest ih =>
    by_cases hs : fieldSkip files f = true
    · rw [fieldPass_cons_skip files f rest hs] at h
      intro p hp
      obtain ⟨g, hg, hgs, v, hv⟩ := ih ps h p hp
      exact ⟨g, List.mem_cons_of_mem f hg, hgs, v, hv⟩
    · rw [Bool.not_eq_true] at hs
      by_cases hexp : f.exported = true
      · cases hv : fieldEncodedValue f with
        | error e =>
          rw [fieldPass_cons_error files f rest e hs hexp hv] at h
          cases h
        | ok v =>
          rw [fieldPass_cons_ok files f rest v hs hexp hv] at h
          cases hr : fieldPass files rest with
          | err e => rw [hr] at h; simp [FieldPassResult.mapParts] at h
          | panicked m => rw [hr] at h; simp [FieldPassResult.mapParts] at h
          | ok ps' =>
            rw [hr] at h
            simp only [FieldPassResult.mapParts] at h
            cases h
            intro p hp
            rcases List.mem_cons.mp hp with hp | hp
            · exact ⟨f, List.mem_cons_self f rest, hs, v, hp⟩
            · obtain ⟨g, hg, hgs, w, hw⟩ := ih ps' hr p hp
              exact ⟨g, List.mem_cons_of_mem f hg, hgs, w, hw⟩
      · rw [Bool.not_eq_true] at hexp
        rw [fieldPass_cons_unexported files f rest hs hexp] at h
        cases h

theorem fieldPass_noskip_names (files : List FileEnvelop) (fields : List StructField)
    (ps : List Part) (hns : ∀ f ∈ fields, fieldSkip files f = false)
    (h : fieldPass files fields = .ok ps) :
    ps.map Part.partName = fields.map resolveFieldName ∧ ps.all Part.isFieldPart = true := by
  induction fields generalizing ps with
  | nil =>
    simp only [fieldPass] at h
    cases h
    simp
  | cons f rest ih =>
    have hf : fieldSkip files f = false := hns f (List.mem_cons_self f rest)
    by_cases hexp : f.exported = true
    · cases hv : fieldEncodedValue f with
      | error e =>
        rw [fieldPass_cons_error files f rest e hf hexp hv] at h
        cases h
      | ok v =>
        rw [fieldPass_cons_ok files f rest v hf hexp hv] at h
        cases hr : fieldPass files rest with
        | err e => rw [hr] at h; simp [FieldPassResult.mapParts] at h
        | panicked m => rw [hr] at h; simp [FieldPassResult.mapParts] at h
        | ok ps' =>
          rw [hr] at h
          simp only [FieldPassResult.mapParts] at h
          cases h
          have := ih ps' (fun g hg => hns g (List.mem_cons_of_mem f hg)) hr
          simp [Part.partName, Part.isFieldPart, this.1, this.2]
    · rw [Bool.not_eq_true] at hexp
      rw [fieldPass_cons_unexported files f rest hf hexp] at h
      cases h

theorem fieldPass_no_panic (files : List FileEnvelop) (fields : List StructField)
    (hexp : ∀ f ∈ fields, fieldSkip files f = false → f.exported = true) :
    ∀ m, fieldPass files fields ≠ .panicked m := by
  induction fields with
  | nil =>
    intro m h
    simp [fieldPass] at h
  | cons f rest ih =>
    intro m h
    by_cases hs : fieldSkip files f = true
    · rw [fieldPass_cons_skip files f rest hs] at h
      exact ih (fun g hg => hexp g (List.mem_cons_of_mem f hg)) m h
    · rw [Bool.not_eq_true] at hs
      have hexpf : f.exported = true := hexp f (List.mem_cons_self f rest) hs
      cases hv : fieldEncodedValue f with
      | error e =>
        rw [fieldPass_cons_error files f rest e hs hexpf hv] at h
        cases h
      | ok v =>
        rw [fieldPass_cons_ok files f rest v hs hexpf hv] at h
        cases hr : fieldPass files rest with
        | ok ps => rw [hr] at h; simp [FieldPassResult.mapParts] at h
        | err e => rw [hr] at h; simp [FieldPassResult.mapParts] at h
        | panicked m' =>
          exact ih (fun g hg => hexp g (List.mem_cons_of_mem f hg)) m' hr

theorem filePass_cons_ok (fs : FS) (a : FileEnvelop) (rest : List FileEnvelop)
    (p : Part) (h : (processAttachment fs a).result = .ok p) :
    filePass fs (a :: rest) = (filePass fs rest).map (fun ps => p :: ps) := by
  cases hr : filePass fs rest <;> simp [filePass, h, hr, Except.map]

theorem filePass_cons_error (fs : FS) (a : FileEnvelop) (rest : List FileEnvelop)
    (e : String) (h : (processAttachment fs a).result = .error e) :
    filePass fs (a :: rest) = .error e := by
  simp [filePass, h]

theorem filePass_append (fs : FS) (l₁ l₂ : List FileEnvelop) :
    filePass fs (l₁ ++ l₂) =
      (filePass fs l₁).bind (fun ps => (filePass fs l₂).map (fun qs => ps ++ qs)) := by
  induction l₁ with
  | nil =>
    cases h₂ : filePass fs l₂ <;> simp [filePass, h₂, Except.bind, Except.map]
  | cons a rest ih =>
    cases ha : (processAttachment fs a).result with
    | error e =>
      rw [List.cons_append, filePass_cons_error fs a _ e ha,
        filePass_cons_error fs a rest e ha]
      simp [Except.bind]
    | ok p =>
      rw [List.cons_append, filePass_cons_ok fs a _ p ha,
        filePass_cons_ok fs a rest p ha, ih]
      cases h₁ : filePass fs rest <;>
        cases h₂ : filePass fs l₂ <;>
          simp [Except.bind, Except.map]

theorem filePass_mem_shape (fs : FS) (files : List FileEnvelop) (qs : List Part)
    (h : filePass fs files = .ok qs) :
    ∀ p ∈ qs, ∃ a, a ∈ files ∧
      p = Part.file a.Name (baseName a.Path) (fs.content a.Path) := by
  induction files generalizing qs with
  | nil =>
    simp only [filePass] at h
    cases h
    intro p hp
    cases hp
  | cons a rest ih =>
    cases ha : (processAttachment fs a).result with
    | error e =>
      rw [filePass_cons_error fs a rest e ha] at h
      cases h
    | ok p =>
      rw [filePass_cons_ok fs a rest p ha] at h
      cases hr : filePass fs rest with
      | error e => rw [hr] at h; cases h
      | ok qs' =>
        rw [hr] at h
        simp only [Except.map] at h
        cases h
        intro q hq
        rcases List.mem_cons.mp hq with hq | hq
        · refine ⟨a, List.mem_cons_self a rest, ?_⟩
          simp only [processAttachment] at ha
          cases ho : fs.openErr a.Path with
          | some e => rw [ho] at ha; cases ha
          | none =>
            rw [ho] at ha
            cases hc : fs.copyErr a.Path with
            | some e => rw [hc] at ha; cases ha
            | none =>
              rw [hc] at ha
              cases ha
              exact hq
        · obtain ⟨b, hb, hbp⟩ := ih qs' hr q hq
          exact ⟨b, List.mem_cons_of_mem a hb, hbp⟩

theorem filePass_ok_openedPaths (fs : FS) (l : List FileEnvelop) (qs : List Part)
    (h : filePass fs l = .ok qs) :
    openedPaths fs l = l.map (fun a => a.Path) := by
  induction l generalizing qs with
  | nil => simp [openedPaths]
  | cons a rest ih =>
    cases ha : (processAttachment fs a).result with
    | error e =>
      rw [filePass_cons_error fs a rest e ha] at h
      cases h
    | ok p =>
      rw [filePass_cons_ok fs a rest p ha] at h
      cases hr : filePass fs rest with
      | error e => rw [hr] at h; cases h
      | ok qs' =>
        simp [openedPaths, ha, ih qs' hr]

theorem openedPaths_abort (fs : FS) (pre : List FileEnvelop) (a : FileEnvelop)
    (post : List FileEnvelop) (qs : List Part) (e : String)
    (hpre : filePass fs pre = .ok qs)
    (ha : (processAttachment fs a).result = .error e) :
    openedPaths fs (pre ++ a :: post) = pre.map (fun b => b.Path) ++ [a.Path] := by
  induction pre generalizing qs with
  | nil => simp [openedPaths, ha]
  | cons b rest ih =>
    cases hb : (processAttachment fs b).result with
    | error eb =>
      rw [filePass_cons_error fs b rest eb hb] at hpre
      cases hpre
    | ok p =>
      rw [filePass_cons_ok fs b rest p hb] at hpre
      cases hr : filePass fs rest with
      | error eb => rw [hr] at hpre; cases hpre
      | ok qs' =>
        simp [openedPaths, hb, ih qs' hr]

theorem getMultipartBody_ret_ok (fs : FS) (b : String) (fields : List StructField)
    (files : List FileEnvelop) (r : MultipartReturn) (ps : List Part)
    (h : GetMultipartBody fs b (.structMsg fields) files = .ret r)
    (hs : r.stream = some ps) :
    ∃ ps₁ qs, fieldPass files fields = .ok ps₁ ∧ filePass fs files = .ok qs ∧
      ps = ps₁ ++ qs ∧ r.err = none := by
  simp only [GetMultipartBody] at h
  cases hf : fieldPass files fields with
  | panicked m =>
    rw [hf] at h
    cases h
  | err e =>
    rw [hf] at h
    cases h
    cases hs
  | ok ps₁ =>
    rw [hf] at h
    cases hl : filePass fs files with
    | error e =>
      rw [hl] at h
      cases h
      cases hs
    | ok qs =>
      rw [hl] at h
      cases h
      simp only at hs
      cases hs
      exact ⟨ps₁, qs, rfl, rfl, rfl, rfl⟩

theorem resolveFieldName_rule (f : StructField) :
    resolveFieldName f =
      if (splitComma f.jsonTag).headD "" = "" then f.name
      else (splitComma f.jsonTag).headD "" := by
  by_cases h : (splitComma f.jsonTag).headD "" = "" <;>
    simp [resolveFieldName, coalesce, h]

theorem fieldEncodedValue_default (f : StructField)
    (h1 : f.value.kind ≠ .kstruct) (h2 : f.value.kind ≠ .kmap)
    (h3 : f.value.kind ≠ .karray) (h4 : f.value.kind ≠ .kslice) :
    fieldEncodedValue f = .ok f.value.render := by
  unfold fieldEncodedValue
  cases hv : f.value.kind <;> simp_all

theorem fieldEncodedValue_composite (f : StructField)
    (hk : f.value.kind = .kstruct ∨ f.value.kind = .kmap ∨
          f.value.kind = .karray ∨ f.value.kind = .kslice) :
    fieldEncodedValue f = f.value.jsonEnc := by
  unfold fieldEncodedValue
  rcases hk with h | h | h | h <;> rw [h]

/-! The claims. -/

/-- C1: for every record and attachment list, if some attachment's `Name`
equals a field's resolved wire name, then no form field under that name is
ever emitted in `GetMultipartBody`'s output — the file replaces the field,
regardless of the field's value and omit-marker. -/
theorem C1_attachment_suppresses_field (fs : FS) (b : String)
    (fields : List StructField) (files : List FileEnvelop) (a : FileEnvelop)
    (r : MultipartReturn) (ps : List Part) (v : String)
    (ha : a ∈ files)
    (hr : GetMultipartBody fs b (.structMsg fields) files = .ret r)
    (hs : r.stream = some ps) :
    Part.field a.Name v ∉ ps := by
  obtain ⟨ps₁, qs, hf, hl, hps, -⟩ := getMultipartBody_ret_ok fs b fields files r ps hr hs
  subst hps
  intro hmem
  rcases List.mem_append.mp hmem with hmem | hmem
  · obtain ⟨f, hfmem, hskip, w, hw⟩ := fieldPass_mem_shape files fields ps₁ hf _ hmem
    have hname : a.Name = resolveFieldName f := by
      injection hw with h1 h2
    have hany : files.any (fun fl => fl.Name == resolveFieldName f) = false := by
      have h := hskip
      unfold fieldSkip at h
      exact (Bool.or_eq_false_iff.mp h).1
    rw [List.any_eq_false] at hany
    exact hany a ha (by simp [hname])
  · obtain ⟨c, hc, hcp⟩ := filePass_mem_shape fs files qs hl _ hmem
    rw [hcp] at hmem
    cases hcp

/-- C1 witness: with record `{Chat: "123" tagged chat_id}` and an attachment
named `chat_id`, the output holds only the file part, and the form field
`chat_id=123` is absent. -/
theorem C1_witness :
    Part.field "chat_id" "123" ∉
      [Part.file "chat_id" "a.jpg" "JPEGDATA"] :=
  C1_attachment_suppresses_field fsAllOk "B" [sampleChatField] [attachChat]
    attachChat
    { stream := some [Part.file "chat_id" "a.jpg" "JPEGDATA"]
      options := { ContentType := "multipart/form-data; boundary=B" }
      err := none }
    [Part.file "chat_id" "a.jpg" "JPEGDATA"] "123"
    (by decide) (by decide) rfl

/-- C2 counterexample: the claim says every error comes with a zero-value
stream, but `GetJSONBody` on an unmarshalable value returns a non-nil (empty)
buffer and a filled content type alongside the marshal error. -/
theorem C2_counterexample :
    (GetJSONBody badJSONValue).err = some "json: unsupported type: func()" ∧
    (GetJSONBody badJSONValue).stream ≠ none ∧
    (GetJSONBody badJSONValue).options = { ContentType := "application/json" } := by
  decide

/-- C2 (amended): whenever `GetMultipartBody` returns a non-nil error, the
returned stream is nil and the options are zero; `GetJSONBody`, by contrast,
returns a non-nil buffer alongside a marshal error. -/
theorem C2_multipart_error_zero_stream (fs : FS) (b : String) (msg : Msg)
    (files : List FileEnvelop) (r : MultipartReturn)
    (h : GetMultipartBody fs b msg files = .ret r) (he : r.err ≠ none) :
    r.stream = none ∧ r.options = { ContentType := "" } := by
  cases msg with
  | nonStruct k => simp [GetMultipartBody] at h
  | structMsg fields =>
    simp only [GetMultipartBody] at h
    cases hf : fieldPass files fields with
    | panicked m =>
      rw [hf] at h
      cases h
    | err e =>
      rw [hf] at h
      cases h
      exact ⟨rfl, rfl⟩
    | ok ps =>
      rw [hf] at h
      cases hl : filePass fs files with
      | error e =>
        rw [hl] at h
        cases h
        exact ⟨rfl, rfl⟩
      | ok qs =>
        rw [hl] at h
        cases h
        simp at he

/-- C2 witness: a failing attachment open yields the error together with a nil
stream and zero options. -/
theorem C2_witness :
    errReturnNoFile.stream = none ∧
    errReturnNoFile.options = { ContentType := "" } :=
  C2_multipart_error_zero_stream fsNoFiles "B" (.structMsg []) [samplePhotoFile]
    errReturnNoFile (by decide) (by decide)

/-- C3 counterexample: the claim says `GetMultipartBody` never panics even for
a non-struct `msg`, but `reflect.Value.NumField` panics on a non-struct
value. -/
theorem C3_counterexample :
    GetMultipartBody fsAllOk "B" (.nonStruct "int") [] =
      .panics "reflect: call of reflect.Value.NumField on int Value" := by
  decide

/-- C3 (amended): for every `msg` of struct kind all of whose non-skipped
fields are exported, `GetMultipartBody` never panics — every failure is
carried by the returned error value.  (A non-struct `msg` panics at
`reflect.Value.NumField`; a non-skipped unexported field panics at
`reflect.Value.Interface`, lines 74/81.) -/
theorem C3_struct_no_panic (fs : FS) (b : String) (fields : List StructField)
    (files : List FileEnvelop)
    (hexp : ∀ f ∈ fields, fieldSkip files f = false → f.exported = true)
    (m : String) :
    GetMultipartBody fs b (.structMsg fields) files ≠ .panics m := by
  intro h
  simp only [GetMultipartBody] at h
  cases hf : fieldPass files fields with
  | panicked m' => exact fieldPass_no_panic files fields hexp m' hf
  | err e => rw [hf] at h; cases h
  | ok ps =>
    rw [hf] at h
    cases hl : filePass fs files with
    | error e => rw [hl] at h; cases h
    | ok qs => rw [hl] at h; cases h

/-- C3 witness: a record whose non-skipped fields are all exported never hits
the panic outcome. -/
theorem C3_witness :
    GetMultipartBody fsAllOk "B" (.structMsg [sampleChatField]) [] ≠
      .panics unexportedPanicMsg :=
  C3_struct_no_panic fsAllOk "B" [sampleChatField] [] (by decide) unexportedPanicMsg

/-- A struct `msg` with a non-skipped unexported field makes the build panic
at `reflect.Value.Interface` — the case the amended C3 excludes. -/
theorem unexported_field_panic_demo :
    GetMultipartBody fsAllOk "B" (.structMsg [sampleUnexportedField]) [] =
      .panics unexportedPanicMsg := by
  decide

/-- C4: for a record with no omit-marked empty fields and no attachments, the
output of `GetMultipartBody` holds exactly one form field per record field, in
declaration order, each named by the wire-name resolution rule (first
comma-separated segment of the json tag when non-empty, otherwise the
identifier name). -/
theorem C4_one_field_per_record_field (fs : FS) (b : String)
    (fields : List StructField) (r : MultipartReturn) (ps : List Part)
    (hnz : ∀ f ∈ fields,
      ¬(strContains f.jsonTag ",omitempty" = true ∧ f.value.isZero = true))
    (h : GetMultipartBody fs b (.structMsg fields) [] = .ret r)
    (hs : r.stream = some ps) :
    ps.map Part.partName =
      fields.map (fun f =>
        if (splitComma f.jsonTag).headD "" = "" then f.name
        else (splitComma f.jsonTag).headD "") ∧
    ps.all Part.isFieldPart = true := by
  obtain ⟨ps₁, qs, hf, hl, hps, -⟩ := getMultipartBody_ret_ok fs b fields [] r ps h hs
  simp only [filePass] at hl
  cases hl
  rw [List.append_nil] at hps
  subst hps
  have hns : ∀ f ∈ fields, fieldSkip [] f = false := by
    intro f hfm
    have hn := hnz f hfm
    cases hc : strContains f.jsonTag ",omitempty" <;>
      cases hz : f.value.isZero <;>
        simp_all [fieldSkip]
  obtain ⟨h1, h2⟩ := fieldPass_noskip_names [] fields ps hns hf
  refine ⟨?_, h2⟩
  rw [h1]
  exact List.map_congr_left (fun f _ => resolveFieldName_rule f)

/-- C4 witness: the record `{Chat: "123" tagged chat_id}` with no attachments
yields exactly the one form field `chat_id`. -/
theorem C4_witness :
    ([Part.field "chat_id" "123"].map Part.partName =
      [sampleChatField].map (fun f =>
        if (splitComma f.jsonTag).headD "" = "" then f.name
        else (splitComma f.jsonTag).headD "")) ∧
    ([Part.field "chat_id" "123"] : List Part).all Part.isFieldPart = true :=
  C4_one_field_per_record_field fsAllOk "B" [sampleChatField]
    { stream := some [Part.field "chat_id" "123"]
      options := { ContentType := "multipart/form-data; boundary=B" }
      err := none }
    [Part.field "chat_id" "123"]
    (by decide) (by decide) rfl

/-- C5: a field marked omit-if-empty whose value is zero and whose wire name
no attachment shares contributes nothing: the call behaves exactly as if the
field were absent from the record. -/
theorem C5_omitempty_zero_skipped (fs : FS) (b : String)
    (files : List FileEnvelop) (pre post : List StructField) (f : StructField)
    (homit : strContains f.jsonTag ",omitempty" = true)
    (hzero : f.value.isZero = true)
    (_hname : ∀ a ∈ files, a.Name ≠ resolveFieldName f) :
    GetMultipartBody fs b (.structMsg (pre ++ f :: post)) files =
      GetMultipartBody fs b (.structMsg (pre ++ post)) files := by
  have hskip : fieldSkip files f = true := by
    simp [fieldSkip, homit, hzero]
  have hfp : fieldPass files (pre ++ f :: post) = fieldPass files (pre ++ post) := by
    rw [fieldPass_append, fieldPass_append, fieldPass_cons_skip files f post hskip]
  simp only [GetMultipartBody, hfp]

/-- C5 witness: the empty omit-if-empty `Caption` field is dropped; the call
equals the call on the record without it. -/
theorem C5_witness :
    GetMultipartBody fsAllOk "B" (.structMsg ([] ++ sampleCaptionField :: [])) [] =
      GetMultipartBody fsAllOk "B" (.structMsg ([] ++ [])) [] :=
  C5_omitempty_zero_skipped fsAllOk "B" [] [] [] sampleCaptionField
    (by decide) (by decide) (by intro a ha; cases ha)

/-- C6: a composite-valued field (struct, map, array or slice kind) that is
not skipped is emitted as exactly one string form field whose value is the
field's JSON encoding; and if its JSON serialization fails, the whole build
aborts with that error and a nil stream.  The `exported` hypothesis makes the
field's serialization actually happen: `json.Marshal` runs on
`Field(i).Interface()`, which is only reached for exported fields. -/
theorem C6_composite_json_part (fs : FS) (b : String)
    (files : List FileEnvelop) (pre post : List StructField) (f : StructField)
    (ps₀ : List Part)
    (hk : f.value.kind = .kstruct ∨ f.value.kind = .kmap ∨
          f.value.kind = .karray ∨ f.value.kind = .kslice)
    (hexp : f.exported = true)
    (hskip : fieldSkip files f = false)
    (hpre : fieldPass files pre = .ok ps₀) :
    (∀ e, f.value.jsonEnc = .error e →
       GetMultipartBody fs b (.structMsg (pre ++ f :: post)) files =
         .ret { stream := none, options := { ContentType := "" }, err := some e }) ∧
    (∀ js r ps, f.value.jsonEnc = .ok js →
       GetMultipartBody fs b (.structMsg (pre ++ f :: post)) files = .ret r →
       r.stream = some ps →
       ∃ qs, ps = ps₀ ++ Part.field (resolveFieldName f) js :: qs) := by
  have henc := fieldEncodedValue_composite f hk
  constructor
  · intro e he
    have hfp : fieldPass files (pre ++ f :: post) = .err e := by
      rw [fieldPass_append, hpre,
        fieldPass_cons_error files f post e hskip hexp (henc.trans he)]
      simp [FieldPassResult.andThen, FieldPassResult.mapParts]
    simp [GetMultipartBody, hfp]
  · intro js r ps hjs hr hs
    obtain ⟨ps₁, qs', hf, hl, hps, -⟩ :=
      getMultipartBody_ret_ok fs b (pre ++ f :: post) files r ps hr hs
    rw [fieldPass_append, hpre,
      fieldPass_cons_ok files f post js hskip hexp (henc.trans hjs)] at hf
    cases hpost : fieldPass files post with
    | err e =>
      rw [hpost] at hf
      simp [FieldPassResult.andThen, FieldPassResult.mapParts] at hf
    | panicked m =>
      rw [hpost] at hf
      simp [FieldPassResult.andThen, FieldPassResult.mapParts] at hf
    | ok ps₂ =>
      rw [hpost] at hf
      simp only [FieldPassResult.andThen, FieldPassResult.mapParts] at hf
      cases hf
      exact ⟨ps₂ ++ qs', by simp [hps]⟩

/-- C6 witness: a slice field whose marshal fails aborts the whole build with
that error and a nil stream. -/
theorem C6_witness :
    GetMultipartBody fsAllOk "B" (.structMsg ([] ++ sampleBadSliceField :: [])) [] =
      .ret { stream := none, options := { ContentType := "" }
             err := some "json: unsupported value: +Inf" } :=
  (C6_composite_json_part fsAllOk "B" [] [] [] sampleBadSliceField []
    (Or.inr (Or.inr (Or.inr rfl))) rfl (by decide) rfl).1
    "json: unsupported value: +Inf" rfl

/-- C7: when opening the file of an attachment fails, `GetMultipartBody`
aborts with that open error and a nil stream, and `os.Open` is never called
on any later attachment. -/
theorem C7_open_failure_aborts (fs : FS) (b : String)
    (fields : List StructField) (files pre post : List FileEnvelop)
    (a : FileEnvelop) (ps qs : List Part) (e : String)
    (hfiles : files = pre ++ a :: post)
    (hfield : fieldPass files fields = .ok ps)
    (hpre : filePass fs pre = .ok qs)
    (hopen : fs.openErr a.Path = some e) :
    GetMultipartBody fs b (.structMsg fields) files =
      .ret { stream := none, options := { ContentType := "" }, err := some e } ∧
    openedPaths fs files = pre.map (fun x => x.Path) ++ [a.Path] := by
  have ha : (processAttachment fs a).result = .error e := by
    simp [processAttachment, hopen]
  have hfp : filePass fs files = .error e := by
    rw [hfiles, filePass_append, hpre, filePass_cons_error fs a post e ha]
    simp [Except.bind, Except.map]
  constructor
  · simp [GetMultipartBody, hfield, hfp]
  · rw [hfiles]
    exact openedPaths_abort fs pre a post qs e hpre ha

/-- C7 witness: one attachment whose path does not exist gives the open error,
a nil stream, and an open trace stopping at that path. -/
theorem C7_witness :
    GetMultipartBody fsNoFiles "B" (.structMsg []) ([] ++ samplePhotoFile :: []) =
      .ret { stream := none, options := { ContentType := "" }
             err := some "open /tmp/a.jpg: no such file or directory" } ∧
    openedPaths fsNoFiles ([] ++ samplePhotoFile :: []) =
      ([] : List FileEnvelop).map (fun x => x.Path) ++ ["/tmp/a.jpg"] :=
  C7_open_failure_aborts fsNoFiles "B" [] ([] ++ samplePhotoFile :: []) [] []
    samplePhotoFile [] [] "open /tmp/a.jpg: no such file or directory"
    rfl rfl rfl rfl

/-- C8: `coalesce` returns the first non-zero argument, or the zero value when
all arguments are zero or the list is empty; in particular it handles the
empty list, and `coalesce "" "fallback"` is `"fallback"`. -/
theorem C8_coalesce_first_non_zero :
    (∀ (T : Type) (zero : T) (isZero : T → Bool),
       (∀ x, isZero x = true ↔ x = zero) →
       ∀ l : List T,
         coalesce zero isZero l = (l.find? (fun x => !(isZero x))).getD zero) ∧
    coalesce "" (fun s => s == "") ([] : List String) = "" ∧
    coalesce "" (fun s => s == "") ["", "fallback"] = "fallback" := by
  refine ⟨?_, rfl, by decide⟩
  intro T zero isZero hz l
  induction l with
  | nil => simp [coalesce]
  | cons v rest ih =>
    by_cases hv : isZero v = true
    · cases rest with
      | nil =>
        simp [coalesce, List.find?, hv]
        exact (hz v).mp hv
      | cons w rest' =>
        rw [List.find?_cons_of_neg _ (by simp [hv])]
        simpa [coalesce, hv] using ih
    · rw [Bool.not_eq_true] at hv
      rw [List.find?_cons_of_pos _ (by simp [hv])]
      simp [coalesce, hv]

/-- C8 witness: the general first-non-zero law applied at strings on
`["", "fallback"]`. -/
theorem C8_witness :
    coalesce "" (fun s => s == "") ["", "fallback"] =
      ((["", "fallback"] : List String).find? (fun x => !(x == ""))).getD "" :=
  C8_coalesce_first_non_zero.1 String "" (fun s => s == "")
    (fun x => by simp) ["", "fallback"]

/-- C9: per attachment, the file handle is opened exactly when `os.Open`
succeeds, and whenever it was opened it is closed on every exit path of that
attachment's processing (the deferred close), success and copy failure
alike. -/
theorem C9_handle_closed (fs : FS) (a : FileEnvelop) :
    (processAttachment fs a).opened = (fs.openErr a.Path).isNone ∧
    (processAttachment fs a).closed = (processAttachment fs a).opened := by
  cases ho : fs.openErr a.Path with
  | some e => simp [processAttachment, ho]
  | none => cases hc : fs.copyErr a.Path <;> simp [processAttachment, ho, hc]

/-- C10: a non-skipped exported field of any kind other than struct, map,
array or slice — pointers included — is emitted via its `%v` rendering; its
JSON encoding is never consulted, so the call succeeds and emits the rendered
part even when marshalling that value would fail.  (The `exported` hypothesis
makes the rendering happen at all: `fmt.Sprintf` runs on
`Field(i).Interface()`, which is only reached for exported fields.) -/
theorem C10_default_rendering (fs : FS) (b : String)
    (files : List FileEnvelop) (pre post : List StructField) (f : StructField)
    (ps₀ qs fileParts : List Part)
    (h1 : f.value.kind ≠ .kstruct) (h2 : f.value.kind ≠ .kmap)
    (h3 : f.value.kind ≠ .karray) (h4 : f.value.kind ≠ .kslice)
    (hexp : f.exported = true)
    (hskip : fieldSkip files f = false)
    (hpre : fieldPass files pre = .ok ps₀)
    (hpost : fieldPass files post = .ok qs)
    (hfiles : filePass fs files = .ok fileParts) :
    GetMultipartBody fs b (.structMsg (pre ++ f :: post)) files =
      .ret { stream := some
               (ps₀ ++ Part.field (resolveFieldName f) f.value.render :: (qs ++ fileParts))
             options := { ContentType := "multipart/form-data; boundary=" ++ b }
             err := none } := by
  have henc := fieldEncodedValue_default f h1 h2 h3 h4
  have hfp : fieldPass files (pre ++ f :: post) =
      .ok (ps₀ ++ Part.field (resolveFieldName f) f.value.render :: qs) := by
    rw [fieldPass_append, hpre, fieldPass_cons_ok files f post _ hskip hexp henc, hpost]
    simp [FieldPassResult.andThen, FieldPassResult.mapParts]
  simp [GetMultipartBody, hfp, hfiles]

/-- C10 witness: a pointer-valued field whose `jsonEnc` is an error is still
emitted via its `%v` rendering — the marshal path is never taken. -/
theorem C10_witness :
    GetMultipartBody fsAllOk "B" (.structMsg ([] ++ samplePtrField :: [])) [] =
      .ret { stream := some
               ([] ++ Part.field (resolveFieldName samplePtrField)
                  samplePtrField.value.render :: ([] ++ []))
             options := { ContentType := "multipart/form-data; boundary=" ++ "B" }
             err := none } :=
  C10_default_rendering fsAllOk "B" [] [] [] samplePtrField [] [] []
    (by decide) (by decide) (by decide) (by decide) rfl (by decide) rfl rfl rfl

end Gotbot
